import Mathlib

/-!
Verification of the terraform-ls bootstrap plugin (`src/main.rs`).

The plugin's `initialize` function is embedded shallowly as a pure function
from the initialization parameters and an environment oracle to a result
together with a trace of the external effects it performs (environment
reads, filesystem operations, the HTTP fetch, log messages, and the final
`start_lsp` directive).  Host capabilities (`VoltEnvironment`, `Http`,
`fs`, `PLUGIN_RPC`) are modelled by the `Env` oracle: each fallible call
site reads its outcome from a dedicated `Env` field, and every call is
recorded in the trace in source order.

External-library modelling choices (all noted at the definition sites):
`Url::parse` is modelled as succeeding, and the flow's trace records the
parser's input string (URI strings are treated opaquely); the url
crate's input cleanup — leading/trailing C0-control/space stripping and
tab/newline removal, which makes the parsed form of `urn:<p>` differ
from the input for whitespace-edged `p` — is modelled separately by
`urlInputCleanup`/`urnParsed`; `zip`'s `ZipFile::enclosed_name`
is modelled after its implementation (NUL check, root/prefix rejection,
depth tracking of `..` components); filesystem writes that the source
propagates with `?` but whose failure no claim concerns are modelled as
succeeding.
-/

namespace TerraformLs

/-- Minimal JSON value model for the `serde_json::Value` initialization
options: only the shapes the plugin inspects (strings, arrays, objects)
are distinguished; everything else is `other`. -/
inductive Json where
  | str (s : String)
  | arr (items : List Json)
  | obj (fields : List (String × Json))
  | other
deriving Repr

/-- Lookup of a key in an object's field list, first match wins
(models `serde_json::Value::get` on an object). -/
def lookupField : List (String × Json) → String → Option Json
  | [], _ => none
  | (k, v) :: rest, key => if k = key then some v else lookupField rest key

/-- Model of `Value::get(key)`: `Some` only on objects having the key. -/
def jGet : Json → String → Option Json
  | Json.obj fields, key => lookupField fields key
  | _, _ => none

/-- Model of `Value::as_str`. -/
def jStr : Json → Option String
  | Json.str s => some s
  | _ => none

/-- Model of `Value::as_array`. -/
def jArr : Json → Option (List Json)
  | Json.arr items => some items
  | _ => none

/-- The slice of `InitializeParams` the plugin reads:
`params.initialization_options`. -/
structure Params where
  initializationOptions : Option Json

/-- A zip archive entry as the extraction loop sees it: its raw name.
The body bytes are irrelevant to every property considered here, so they
are not modelled. -/
structure ZipEntry where
  name : String
deriving DecidableEq, Repr

/-- Model of an `Http::get` response: the success flag of
`status_code.is_success()` and the result of `body_read_all()`, the body
being the list of entries of the zip archive it decodes to. -/
structure HttpResp where
  statusSuccess : Bool
  body : Except String (List ZipEntry)

/-- Environment oracle: one field per external call site of `initialize`,
giving that call's outcome.  `osRes1` is the `operating_system()` read at
the archive-name computation and `osRes2` the read at the binary-name
computation; they are separate fields because the source calls the host
twice. -/
structure Env where
  archRes : Except String String
  osRes1 : Except String String
  osRes2 : Except String String
  uriRes : Except String String
  binaryPresent : Bool
  stalePresent : Bool
  staleRemoveRes : Except String Unit
  httpRes : Except String HttpResp
  finalRemoveRes : Except String Unit

/-- Observable effects of one run, recorded in source order. -/
inductive Effect where
  | envReadArch
  | envReadOs
  | envReadUri
  | stderrLog (msg : String)
  | logMessage (msg : String)
  | fsExists (path : String)
  | fsRemove (path : String)
  | fsWrite (path : String)
  | fsOpen (path : String)
  | fsCreateDir (path : String)
  | fsEnsureDir (path : String)
  | httpGet (url : String)
  | startLsp (uri : String) (args : List String)
deriving DecidableEq, Repr

/-- `const TERRAFORM_LS_VERSION: &str = "0.32.7"`. -/
def TERRAFORM_LS_VERSION : String := "0.32.7"

/-- The `volt` section of the initialization options
(`opts.get("volt")`). -/
def voltSection (opts : Option Json) : Option Json :=
  match opts with
  | none => none
  | some o => jGet o "volt"

/-- The pass-through options: `opts.get("terraform-ls")`. -/
def passthroughOptions (opts : Option Json) : Option Json :=
  match opts with
  | none => none
  | some o => jGet o "terraform-ls"

/-- Server argument resolution, lines 60 and 66-75: start from
`vec!["serve"]` and push every string element of the `serverArgs`
array. -/
def resolveServerArgs (opts : Option Json) : List String :=
  match voltSection opts with
  | none => ["serve"]
  | some volt =>
    match jGet volt "serverArgs" with
    | none => ["serve"]
    | some a =>
      match jArr a with
      | none => ["serve"]
      | some items => "serve" :: items.filterMap jStr

/-- The raw `serverPath` override, lines 77-78: present only when the
`volt` section has a `serverPath` key holding a string. -/
def serverPathOverride (opts : Option Json) : Option String :=
  match voltSection opts with
  | none => none
  | some volt =>
    match jGet volt "serverPath" with
    | none => none
    | some sp => jStr sp

/-- Model of Rust's `str::trim` (line 91) by structural recursion over
the character list: whitespace is stripped from both ends.  (`String.trim`
itself is avoided because its positional implementation does not reduce
in the kernel.) -/
def trimStr (s : String) : String :=
  String.mk
    (((s.data.dropWhile Char.isWhitespace).reverse.dropWhile
        Char.isWhitespace).reverse)

/-- The raw `terraformlsVersion` override, lines 89-90. -/
def versionOverride (opts : Option Json) : Option String :=
  match voltSection opts with
  | none => none
  | some volt =>
    match jGet volt "terraformlsVersion" with
    | none => none
    | some v => jStr v

/-- Version resolution, lines 59 and 89-96: the override is trimmed and
replaces the compiled default only when non-empty after trimming. -/
def resolveVersion (opts : Option Json) : String :=
  match versionOverride opts with
  | none => TERRAFORM_LS_VERSION
  | some s => if (trimStr s).isEmpty then TERRAFORM_LS_VERSION else trimStr s

/-- Architecture token mapping, lines 100-106. -/
def archToken : String → Option String
  | "x86" => some "386"
  | "x86_64" => some "amd64"
  | "aarch64" => some "arm64"
  | _ => none

/-- OS family mapping as embedded in the per-arm format strings of
lines 108-116. -/
def osFamily : String → Option String
  | "macos" => some "darwin"
  | "linux" => some "linux"
  | "windows" => some "windows"
  | "openbsd" => some "openbsd"
  | "freebsd" => some "freebsd"
  | _ => none

/-- Archive file name, the format string of lines 109-113. -/
def zipFileName (version fam arch : String) : String :=
  "terraform-ls_" ++ version ++ "_" ++ fam ++ "_" ++ arch ++ ".zip"

/-- Download URL, lines 122-125. -/
def downloadUrlOf (version zipFile : String) : String :=
  "https://releases.hashicorp.com/terraform-ls/" ++ version ++ "/" ++ zipFile

/-- Architecture read and mapping, lines 100-106: one host read; an
unmapped value or a read error is fatal. -/
def readArchStage (res : Except String String) :
    Except String String × List Effect :=
  match res with
  | Except.error e => (Except.error ("Error ARCH: " ++ e), [Effect.envReadArch])
  | Except.ok v =>
    match archToken v with
    | some t => (Except.ok t, [Effect.envReadArch])
    | none => (Except.error ("Unsupported ARCH: " ++ v), [Effect.envReadArch])

/-- First operating-system read and mapping, lines 108-116. -/
def readOsStage (res : Except String String) :
    Except String String × List Effect :=
  match res with
  | Except.error e => (Except.error ("Error OS: " ++ e), [Effect.envReadOs])
  | Except.ok v =>
    match osFamily v with
    | some f => (Except.ok f, [Effect.envReadOs])
    | none => (Except.error ("Unsupported OS: " ++ v), [Effect.envReadOs])

/-- Expected binary name from the second operating-system read,
lines 127-130: the wildcard arm maps every non-`windows` outcome,
including a read error, to the un-suffixed name. -/
def binaryNameOf (res : Except String String) : String :=
  match res with
  | Except.ok "windows" => "terraform-ls.exe"
  | _ => "terraform-ls"

/-- Split a string on `/` by structural recursion over its characters
(the kernel-reducible model of `str::split('/')` / `Path` segmenting;
`String.splitOn` itself is avoided because its positional implementation
does not reduce in the kernel). -/
def splitChars : List Char → List Char → List String
  | [], acc => [String.mk acc.reverse]
  | c :: rest, acc =>
    if c = '/' then String.mk acc.reverse :: splitChars rest []
    else splitChars rest (c :: acc)

/-- All `/`-separated segments of a string. -/
def splitOnSlash (s : String) : List String :=
  splitChars s.data []

/-- Join segments back with `/`. -/
def joinWithSlash : List String → String
  | [] => ""
  | [x] => x
  | x :: rest => x ++ "/" ++ joinWithSlash rest

/-- Does the string contain a NUL character
(model of `file_name.contains('\0')`)? -/
def strHasNul (s : String) : Bool :=
  s.data.any (fun c => c = Char.ofNat 0)

/-- Does the string start with `/` (a `RootDir` path component)? -/
def strStartsWithSlash (s : String) : Bool :=
  match s.data with
  | [] => false
  | c :: _ => c = '/'

/-- Does the string end with `/` (model of `name.ends_with('/')` at
line 152)? -/
def strEndsWithSlash (s : String) : Bool :=
  match s.data.getLast? with
  | some c => c = '/'
  | none => false

/-- Path components as `Path::components` yields them for the depth scan:
split on `/`, drop empty segments and `.` (which leaves depth
unchanged in `enclosed_name`). -/
def pathComponents (name : String) : List String :=
  (splitOnSlash name).filter (fun c => !(c = "") && !(c = "."))

/-- Depth scan of `enclosed_name`: `..` needs a positive running depth
(`depth.checked_sub(1)?`), every normal component increments it. -/
def depthOk : List String → Nat → Bool
  | [], _ => true
  | c :: rest, d =>
    if c = ".." then
      match d with
      | 0 => false
      | Nat.succ d2 => depthOk rest d2
    else depthOk rest (d + 1)

/-- Model of the zip crate's `ZipFile::enclosed_name`, used at line 147:
rejects names containing NUL, absolute names, and names whose `..`
components would climb above the destination root; otherwise returns the
name as the relative output path. -/
def enclosedName (name : String) : Option String :=
  if strHasNul name then none
  else if strStartsWithSlash name then none
  else if depthOk (pathComponents name) 0 then some name
  else none

/-- Everything up to the last `/` of a path, the model of
`outpath.parent()` at line 155. -/
def parentDir (p : String) : String :=
  joinWithSlash ((splitOnSlash p).dropLast)

/-- Extraction of one archive entry, lines 146-162: entries without an
enclosed name are skipped (`continue`); names ending in `/` become
directories; other entries get their parent directory ensured and their
file written.  Reading the entry and the file writes themselves are
modelled as succeeding. -/
def extractEntry (e : ZipEntry) : List Effect :=
  match enclosedName e.name with
  | none => []
  | some outpath =>
    if strEndsWithSlash e.name then [Effect.fsCreateDir outpath]
    else [Effect.fsEnsureDir (parentDir outpath), Effect.fsWrite outpath]

/-- The extraction loop over all entries, lines 145-163. -/
def extractAll : List ZipEntry → List Effect
  | [] => []
  | e :: rest => extractEntry e ++ extractAll rest

/-- Stale-archive handling, lines 133-135: if the archive file already
exists it is removed with `fs::remove_file(&zip_file)?` — note the `?`:
a removal failure here propagates. -/
def staleStage (present : Bool) (removeRes : Except String Unit)
    (zipFile : String) : Except String Unit × List Effect :=
  if present then
    match removeRes with
    | Except.error e =>
      (Except.error e, [Effect.fsExists zipFile, Effect.fsRemove zipFile])
    | Except.ok _ =>
      (Except.ok (), [Effect.fsExists zipFile, Effect.fsRemove zipFile])
  else (Except.ok (), [Effect.fsExists zipFile])

/-- Fetch and extraction, lines 136-164: a transport error propagates; a
non-success status skips the body entirely; on success the body is
written to the archive path, the archive opened, and every entry
extracted. -/
def fetchStage (httpRes : Except String HttpResp) (zipFile downloadUrl : String) :
    Except String Unit × List Effect :=
  match httpRes with
  | Except.error e => (Except.error e, [Effect.httpGet downloadUrl])
  | Except.ok resp =>
    if resp.statusSuccess then
      match resp.body with
      | Except.error e =>
        (Except.error e,
          [Effect.httpGet downloadUrl, Effect.stderrLog "STATUS_CODE"])
      | Except.ok entries =>
        (Except.ok (),
          [Effect.httpGet downloadUrl, Effect.stderrLog "STATUS_CODE",
            Effect.fsWrite zipFile, Effect.fsOpen zipFile] ++ extractAll entries)
    else
      (Except.ok (), [Effect.httpGet downloadUrl, Effect.stderrLog "STATUS_CODE"])

/-- Post-extraction archive removal, lines 166-172: always attempted; a
failure is logged via the `error!` macro and never propagated. -/
def cleanupStage (removeRes : Except String Unit) (zipFile : String) :
    List Effect :=
  match removeRes with
  | Except.ok _ => [Effect.fsRemove zipFile]
  | Except.error e =>
    [Effect.fsRemove zipFile,
      Effect.logMessage ("Failed to remove download artifact! e: " ++ e)]

/-- The guarded acquisition block, lines 132-173: everything inside
`if !PathBuf::from(&server_path).exists()`. -/
def acquireStage (env : Env) (zipFile downloadUrl binName : String) :
    Except String Unit × List Effect :=
  if env.binaryPresent then (Except.ok (), [Effect.fsExists binName])
  else
    match staleStage env.stalePresent env.staleRemoveRes zipFile with
    | (Except.error e, t1) => (Except.error e, Effect.fsExists binName :: t1)
    | (Except.ok _, t1) =>
      match fetchStage env.httpRes zipFile downloadUrl with
      | (Except.error e, t2) =>
        (Except.error e, Effect.fsExists binName :: (t1 ++ t2))
      | (Except.ok _, t2) =>
        (Except.ok (),
          Effect.fsExists binName ::
            (t1 ++ t2 ++ cleanupStage env.finalRemoveRes zipFile))

/-- Model of `Url::join(server_path)` at line 184: the relative reference
replaces everything after the last `/` of the base. -/
def joinUri (base rel : String) : String :=
  joinWithSlash ((splitOnSlash base).dropLast ++ [rel])

/-- Launch, lines 175-187: read the volt URI (`?` propagates), join the
binary name onto it, log, and issue `start_lsp`.  `Url::parse` of the
host-provided URI is modelled as succeeding. -/
def launchStage (uriRes : Except String String) (binName : String)
    (serverArgs : List String) : Except String Unit × List Effect :=
  match uriRes with
  | Except.error e => (Except.error e, [Effect.envReadUri])
  | Except.ok voltUri =>
    (Except.ok (),
      [Effect.envReadUri,
        Effect.logMessage
          ("Starting LSP server with URI: " ++ joinUri voltUri binName),
        Effect.startLsp (joinUri voltUri binName) serverArgs])

/-- The acquisition-and-launch path, lines 100-189: platform resolution
(arch read, first OS read), archive name and URL, stderr note, second OS
read for the binary name, guarded acquisition, launch. -/
def mainFlow (opts : Option Json) (serverArgs : List String) (env : Env) :
    Except String Unit × List Effect :=
  match readArchStage env.archRes with
  | (Except.error e, t1) => (Except.error e, t1)
  | (Except.ok arch, t1) =>
    match readOsStage env.osRes1 with
    | (Except.error e, t2) => (Except.error e, t1 ++ t2)
    | (Except.ok fam, t2) =>
      let version := resolveVersion opts
      let zipFile := zipFileName version fam arch
      let downloadUrl := downloadUrlOf version zipFile
      let t3 := [Effect.stderrLog ("ZIP_FILE: " ++ zipFile), Effect.envReadOs]
      let binName := binaryNameOf env.osRes2
      match acquireStage env zipFile downloadUrl binName with
      | (Except.error e, t4) => (Except.error e, t1 ++ t2 ++ t3 ++ t4)
      | (Except.ok _, t4) =>
        match launchStage env.uriRes binName serverArgs with
        | (r, t5) => (r, t1 ++ t2 ++ t3 ++ t4 ++ t5)

/-- Embedding of `initialize` (lines 45-190): resolve the server
arguments, then either short-circuit on a non-empty `serverPath`
override (lines 77-87, `Url::parse("urn:...")` modelled as succeeding
and returning its input) or run the acquisition-and-launch path. -/
def initializeFlow (params : Params) (env : Env) :
    Except String Unit × List Effect :=
  let opts := params.initializationOptions
  let serverArgs := resolveServerArgs opts
  match serverPathOverride opts with
  | some p =>
    if p.isEmpty then mainFlow opts serverArgs env
    else (Except.ok (), [Effect.startLsp ("urn:" ++ p) serverArgs])
  | none => mainFlow opts serverArgs env

/-- Trace query: is the effect an HTTP call? -/
def isHttpGet : Effect → Bool
  | Effect.httpGet _ => true
  | _ => false

/-- Trace query: is the effect a filesystem action? -/
def isFsEffect : Effect → Bool
  | Effect.fsExists _ => true
  | Effect.fsRemove _ => true
  | Effect.fsWrite _ => true
  | Effect.fsOpen _ => true
  | Effect.fsCreateDir _ => true
  | Effect.fsEnsureDir _ => true
  | _ => false

/-- Trace query: is the effect part of writing or extracting the
archive (archive write, archive open, entry writes)? -/
def isArchiveWriteEffect : Effect → Bool
  | Effect.fsWrite _ => true
  | Effect.fsOpen _ => true
  | Effect.fsCreateDir _ => true
  | Effect.fsEnsureDir _ => true
  | _ => false

/-- Trace query: second-axis environment read counter support. -/
def isEnvReadOs : Effect → Bool
  | Effect.envReadOs => true
  | _ => false

/-- Trace query: architecture environment read. -/
def isEnvReadArch : Effect → Bool
  | Effect.envReadArch => true
  | _ => false

/-- Number of effects in a trace satisfying a query. -/
def countEffect (p : Effect → Bool) (t : List Effect) : Nat :=
  (t.filter p).length

/-- The URIs of the `start_lsp` directives in a trace, in order. -/
def launchUris (t : List Effect) : List String :=
  t.filterMap fun e =>
    match e with
    | Effect.startLsp uri _ => some uri
    | _ => none

/-- The argument lists of the `start_lsp` directives in a trace. -/
def launchArgLists (t : List Effect) : List (List String) :=
  t.filterMap fun e =>
    match e with
    | Effect.startLsp _ args => some args
    | _ => none

end TerraformLs

namespace TerraformLs

/-- Compact `Env` builder for concrete runs in theorem statements. -/
def mkEnv (ar os1 os2 ur : Except String String) (bp sp : Bool)
    (sr : Except String Unit) (hr : Except String HttpResp)
    (fr : Except String Unit) : Env :=
  ⟨ar, os1, os2, ur, bp, sp, sr, hr, fr⟩

/-- Is the effect an environment read of the architecture or the
operating system (the two platform axes)? -/
def isPlatformRead : Effect → Bool
  | Effect.envReadArch => true
  | Effect.envReadOs => true
  | _ => false

theorem isEnvReadOs_false_of_platform {e : Effect}
    (h : isPlatformRead e = false) : isEnvReadOs e = false := by
  cases e <;> simp_all [isPlatformRead, isEnvReadOs]

theorem isEnvReadArch_false_of_platform {e : Effect}
    (h : isPlatformRead e = false) : isEnvReadArch e = false := by
  cases e <;> simp_all [isPlatformRead, isEnvReadArch]

theorem countEffect_eq_zero_of (q : Effect → Bool) (t : List Effect)
    (h : ∀ e ∈ t, q e = false) : countEffect q t = 0 := by
  have hf : t.filter q = [] := List.filter_eq_nil.mpr (by intro a ha; simp [h a ha])
  simp [countEffect, hf]

theorem countEffect_cons (q : Effect → Bool) (x : Effect) (t : List Effect) :
    countEffect q (x :: t) = (if q x then 1 else 0) + countEffect q t := by
  by_cases hq : q x <;> simp [countEffect, List.filter_cons, hq, Nat.add_comm]

theorem countEffect_append (q : Effect → Bool) (t1 t2 : List Effect) :
    countEffect q (t1 ++ t2) = countEffect q t1 + countEffect q t2 := by
  simp [countEffect, List.filter_append]

theorem launchUris_append (t1 t2 : List Effect) :
    launchUris (t1 ++ t2) = launchUris t1 ++ launchUris t2 := by
  simp [launchUris, List.filterMap_append]

theorem staleStage_no_platform (p : Bool) (r : Except String Unit) (z : String) :
    ∀ x ∈ (staleStage p r z).2, isPlatformRead x = false := by
  intro x hx
  unfold staleStage at hx
  split at hx
  · split at hx <;> simp at hx <;> rcases hx with rfl | rfl <;> rfl
  · simp at hx; subst hx; rfl

theorem extractEntry_no_platform (e : ZipEntry) :
    ∀ x ∈ extractEntry e, isPlatformRead x = false := by
  intro x hx
  unfold extractEntry at hx
  split at hx
  · simp at hx
  · split at hx
    · simp at hx; subst hx; rfl
    · simp at hx; rcases hx with rfl | rfl <;> rfl

theorem extractAll_no_platform (es : List ZipEntry) :
    ∀ x ∈ extractAll es, isPlatformRead x = false := by
  induction es with
  | nil => intro x hx; simp [extractAll] at hx
  | cons e rest ih =>
    intro x hx
    rcases List.mem_append.mp hx with h | h
    · exact extractEntry_no_platform e x h
    · exact ih x h

theorem fetchStage_no_platform (hr : Except String HttpResp) (z u : String) :
    ∀ x ∈ (fetchStage hr z u).2, isPlatformRead x = false := by
  intro x hx
  unfold fetchStage at hx
  split at hx
  · simp at hx; subst hx; rfl
  · split at hx
    · split at hx
      · simp at hx; rcases hx with rfl | rfl <;> rfl
      · rcases List.mem_append.mp hx with h | h
        · simp at h; rcases h with rfl | rfl | rfl | rfl <;> rfl
        · exact extractAll_no_platform _ x h
    · simp at hx; rcases hx with rfl | rfl <;> rfl

theorem cleanupStage_no_platform (r : Except String Unit) (z : String) :
    ∀ x ∈ cleanupStage r z, isPlatformRead x = false := by
  intro x hx
  unfold cleanupStage at hx
  split at hx <;> simp at hx
  · subst hx; rfl
  · rcases hx with rfl | rfl <;> rfl

theorem acquireStage_no_platform (env : Env) (z u b : String) :
    ∀ x ∈ (acquireStage env z u b).2, isPlatformRead x = false := by
  intro x hx
  unfold acquireStage at hx
  by_cases hbp : env.binaryPresent = true
  · simp [hbp] at hx; subst hx; rfl
  · simp only [hbp, if_neg, Bool.false_eq_true, if_false] at hx
    rcases hs : staleStage env.stalePresent env.staleRemoveRes z with ⟨rs, ts⟩
    rw [hs] at hx
    cases rs with
    | error e =>
      simp at hx
      rcases hx with rfl | hx
      · rfl
      · exact staleStage_no_platform _ _ _ x (by rw [hs]; exact hx)
    | ok _ =>
      rcases hf : fetchStage env.httpRes z u with ⟨rf, tf⟩
      rw [hf] at hx
      cases rf with
      | error e =>
        simp at hx
        rcases hx with rfl | hx | hx
        · rfl
        · exact staleStage_no_platform _ _ _ x (by rw [hs]; exact hx)
        · exact fetchStage_no_platform _ _ _ x (by rw [hf]; exact hx)
      | ok _ =>
        simp at hx
        rcases hx with rfl | hx | hx | hx
        · rfl
        · exact staleStage_no_platform _ _ _ x (by rw [hs]; exact hx)
        · exact fetchStage_no_platform _ _ _ x (by rw [hf]; exact hx)
        · exact cleanupStage_no_platform _ _ x hx

theorem launchStage_no_platform (ur : Except String String) (b : String)
    (sa : List String) :
    ∀ x ∈ (launchStage ur b sa).2, isPlatformRead x = false := by
  intro x hx
  unfold launchStage at hx
  split at hx <;> simp at hx
  · subst hx; rfl
  · rcases hx with rfl | rfl | rfl <;> rfl

/-- Reduction of the acquisition-and-launch path once both platform
reads succeed and map. -/
theorem mainFlow_reduce (opts : Option Json) (sa : List String) (env : Env)
    (a o tok fam : String)
    (hae : env.archRes = Except.ok a) (ha : archToken a = some tok)
    (hoe : env.osRes1 = Except.ok o) (ho : osFamily o = some fam) :
    mainFlow opts sa env =
      (match acquireStage env (zipFileName (resolveVersion opts) fam tok)
          (downloadUrlOf (resolveVersion opts)
            (zipFileName (resolveVersion opts) fam tok))
          (binaryNameOf env.osRes2) with
        | (Except.error e, t4) =>
          (Except.error e,
            Effect.envReadArch :: Effect.envReadOs ::
              Effect.stderrLog
                ("ZIP_FILE: " ++ zipFileName (resolveVersion opts) fam tok) ::
              Effect.envReadOs :: t4)
        | (Except.ok _, t4) =>
          match launchStage env.uriRes (binaryNameOf env.osRes2) sa with
          | (r, t5) =>
            (r, Effect.envReadArch :: Effect.envReadOs ::
              Effect.stderrLog
                ("ZIP_FILE: " ++ zipFileName (resolveVersion opts) fam tok) ::
              Effect.envReadOs :: (t4 ++ t5))) := by
  unfold mainFlow readArchStage readOsStage
  rw [hae, hoe]
  simp only [ha, ho]
  rcases hacq : acquireStage env (zipFileName (resolveVersion opts) fam tok)
      (downloadUrlOf (resolveVersion opts)
        (zipFileName (resolveVersion opts) fam tok))
      (binaryNameOf env.osRes2) with ⟨r4, t4⟩
  cases r4 with
  | error e => simp
  | ok _ =>
    rcases hl : launchStage env.uriRes (binaryNameOf env.osRes2) sa with ⟨r5, t5⟩
    simp

/-- Does the configuration take the explicit-`serverPath` short-circuit of
lines 77-87? -/
def takesShortCircuit (opts : Option Json) : Bool :=
  match serverPathOverride opts with
  | some p => !p.isEmpty
  | none => false

/-- A run whose configuration does not short-circuit is the
acquisition-and-launch path. -/
theorem initializeFlow_no_short (opts : Option Json) (env : Env)
    (h : takesShortCircuit opts = false) :
    initializeFlow ⟨opts⟩ env = mainFlow opts (resolveServerArgs opts) env := by
  unfold initializeFlow
  unfold takesShortCircuit at h
  cases hsp : serverPathOverride opts with
  | none => simp [hsp]
  | some p =>
    rw [hsp] at h
    have he : p.isEmpty = true := by simpa using h
    simp [hsp, he]

/-- A default-shaped environment: linux on x86_64, binary already
present, clean filesystem, working HTTP. -/
def baseEnv : Env :=
  mkEnv (Except.ok "x86_64") (Except.ok "linux") (Except.ok "linux")
    (Except.ok "file:///plugins/volt/") true false (Except.ok ())
    (Except.ok ⟨true, Except.ok []⟩) (Except.ok ())

/-- Initialization options carrying a one-element `serverArgs`
override. -/
def c1Opts : Option Json :=
  some (Json.obj [("volt", Json.obj [("serverArgs", Json.arr [Json.str "--foo"])])])

/-- C1 counterexample: with override `["--foo"]`, the argument list the
launch directive receives is `["serve", "--foo"]` — the default is kept
and the override appended, so the list is not "exactly the override
list". -/
theorem c1_counterexample :
    launchArgLists (initializeFlow ⟨c1Opts⟩ baseEnv).2 = [["serve", "--foo"]] ∧
    ["serve", "--foo"] ≠ ["--foo"] := by
  constructor
  · rfl
  · decide

/-- C1 (amended): when the `serverArgs` override is present and
non-empty, the resulting argument list is the default `["serve"]`
followed by the override's string elements — the override is appended to
the default list, not a replacement of it. -/
theorem c1_args_append (opts : Option Json) (volt a : Json) (items : List Json)
    (hv : voltSection opts = some volt)
    (hs : jGet volt "serverArgs" = some a)
    (ha : jArr a = some items)
    (hne : items ≠ []) :
    resolveServerArgs opts = "serve" :: items.filterMap jStr := by
  simp [resolveServerArgs, hv, hs, ha]

/-- Witness for `c1_args_append` at the concrete override `["--foo"]`. -/
theorem c1_args_append_witness :
    resolveServerArgs c1Opts = ["serve", "--foo"] := by
  have h := c1_args_append c1Opts (Json.obj [("serverArgs", Json.arr [Json.str "--foo"])])
    (Json.arr [Json.str "--foo"]) [Json.str "--foo"] rfl rfl rfl (by simp)
  simpa using h

/-- Initialization options carrying an explicit `serverPath`. -/
def c6Opts : Option Json :=
  some (Json.obj [("volt", Json.obj [("serverPath", Json.str "/usr/local/bin/tls")])])

/-- C6: a non-empty `serverPath` override short-circuits the whole flow:
the only effect of the run is the launch directive with URI
`urn:<serverPath>` — no HTTP call, no filesystem access, whatever the
rest of the configuration and environment. -/
theorem c6_explicit_path (opts : Option Json) (p : String) (env : Env)
    (hp : serverPathOverride opts = some p) (hne : p.isEmpty = false) :
    initializeFlow ⟨opts⟩ env =
      (Except.ok (), [Effect.startLsp ("urn:" ++ p) (resolveServerArgs opts)]) ∧
    countEffect isHttpGet (initializeFlow ⟨opts⟩ env).2 = 0 ∧
    countEffect isFsEffect (initializeFlow ⟨opts⟩ env).2 = 0 ∧
    launchUris (initializeFlow ⟨opts⟩ env).2 = ["urn:" ++ p] := by
  have h : initializeFlow ⟨opts⟩ env =
      (Except.ok (), [Effect.startLsp ("urn:" ++ p) (resolveServerArgs opts)]) := by
    simp [initializeFlow, hp, hne]
  refine ⟨h, ?_, ?_, ?_⟩ <;>
    rw [h] <;>
    simp [countEffect, launchUris, isHttpGet, isFsEffect, List.filter, List.filterMap]

/-- Witness for `c6_explicit_path` at a concrete path and environment. -/
theorem c6_explicit_path_witness :
    initializeFlow ⟨c6Opts⟩ baseEnv =
      (Except.ok (), [Effect.startLsp "urn:/usr/local/bin/tls" ["serve"]]) :=
  (c6_explicit_path c6Opts "/usr/local/bin/tls" baseEnv rfl rfl).1

/-- Options with a whitespace-only `serverPath`. -/
def c10PathOpts : Option Json :=
  some (Json.obj [("volt", Json.obj [("serverPath", Json.str "   ")])])

/-- Options with a whitespace-only `terraformlsVersion`. -/
def c10VerOpts : Option Json :=
  some (Json.obj [("volt", Json.obj [("terraformlsVersion", Json.str "   ")])])

/-- Is the character a C0 control or a space?  Modelled from the url
crate (WHATWG URL parsing): such characters are stripped from both ends
of the parser input before parsing. -/
def isC0OrSpace (c : Char) : Bool :=
  c.val ≤ 32

/-- Is the character an ASCII tab or newline?  Modelled from the url
crate: such characters are removed everywhere in the parser input. -/
def isTabOrNewline (c : Char) : Bool :=
  c = '\t' || c = '\n' || c = '\r'

/-- Modelled from the url crate, backing `Url::parse` at line 80: the
parser strips leading and trailing C0 controls and spaces from its
input and removes all ASCII tabs and newlines, so the serialization of
a `urn:` URL is the cleaned input (percent-encoding of other control
characters is outside this model's scope). -/
def urlInputCleanup (s : String) : String :=
  String.mk
    ((((s.data.dropWhile isC0OrSpace).reverse.dropWhile
        isC0OrSpace).reverse).filter (fun c => !isTabOrNewline c))

/-- The URI `start_lsp` actually receives for an explicit server path
`p`: the cleaned serialization of `urn:<p>`.  The flow's trace records
the parser input `"urn:" ++ p`; this function gives the parsed form. -/
def urnParsed (p : String) : String :=
  urlInputCleanup ("urn:" ++ p)

theorem dropWhile_append_of_all {w : Char → Bool} (l m : List Char)
    (h : ∀ c ∈ l, w c = true) :
    List.dropWhile w (l ++ m) = List.dropWhile w m := by
  induction l with
  | nil => simp
  | cons c rest ih =>
    have hc := h c (List.mem_cons_self c rest)
    simp [List.dropWhile, hc]
    exact ih (fun x hx => h x (List.mem_cons_of_mem c hx))

/-- C10 counterexample: a whitespace-only `serverPath` does trigger the
short-circuit (the emptiness check does not trim), but the URL parser
strips the trailing whitespace of `urn:   `, so the launch directive
receives the URI `urn:`, not `urn:<whitespace>`. -/
theorem c10_counterexample :
    serverPathOverride c10PathOpts = some "   " ∧
    ("   " : String).isEmpty = false ∧
    urnParsed "   " = "urn:" ∧
    ("urn:" : String) ≠ "urn:   " := by
  refine ⟨rfl, rfl, rfl, ?_⟩
  decide

/-- C10 (amended): the `serverPath` emptiness check is performed
without trimming — a whitespace-only `serverPath` is treated as
non-empty and triggers the explicit-path short-circuit, with
`urn:<whitespace>` handed to the URL parser — but the parser strips
leading and trailing whitespace, so the launch URI the host receives is
`urn:`, not `urn:<whitespace>`.  The version override, by contrast, is
trimmed before its emptiness check, and a whitespace-only version falls
back to the compiled default. -/
theorem c10_whitespace_path (optsA optsB : Option Json) (p s : String)
    (env : Env)
    (hp : serverPathOverride optsA = some p)
    (hw : p.data.all Char.isWhitespace = true)
    (hne : p.isEmpty = false)
    (hv : versionOverride optsB = some s) (hst : (trimStr s).isEmpty = true) :
    initializeFlow ⟨optsA⟩ env =
      (Except.ok (), [Effect.startLsp ("urn:" ++ p) (resolveServerArgs optsA)]) ∧
    urnParsed p = "urn:" ∧
    resolveVersion optsB = TERRAFORM_LS_VERSION := by
  refine ⟨?_, ?_, ?_⟩
  · simp [initializeFlow, hp, hne]
  · have hall : ∀ c ∈ p.data.reverse, isC0OrSpace c = true := by
      intro c hc
      rw [List.mem_reverse] at hc
      have hw2 : c.isWhitespace = true := by
        have hx := List.all_eq_true.mp hw c hc
        simpa using hx
      have hcases : ((c = ' ' ∨ c = '\t') ∨ c = '\r') ∨ c = '\n' := by
        simpa [Char.isWhitespace] using hw2
      rcases hcases with ((rfl | rfl) | rfl) | rfl <;> rfl
    have hdrop := dropWhile_append_of_all p.data.reverse [':', 'n', 'r', 'u'] hall
    unfold urnParsed urlInputCleanup
    have hdata : ("urn:" ++ p).data = 'u' :: 'r' :: 'n' :: ':' :: p.data := rfl
    rw [hdata]
    rw [show List.dropWhile isC0OrSpace ('u' :: 'r' :: 'n' :: ':' :: p.data) =
        'u' :: 'r' :: 'n' :: ':' :: p.data from rfl]
    simp only [List.reverse_cons, List.append_assoc, List.cons_append,
      List.nil_append, List.singleton_append]
    rw [hdrop]
    rfl
  · simp [resolveVersion, hv, hst]

/-- Witness for `c10_whitespace_path` at the whitespace-only
overrides. -/
theorem c10_whitespace_path_witness :
    initializeFlow ⟨c10PathOpts⟩ baseEnv =
      (Except.ok (), [Effect.startLsp "urn:   " ["serve"]]) ∧
    urnParsed "   " = "urn:" ∧
    resolveVersion c10VerOpts = "0.32.7" :=
  c10_whitespace_path c10PathOpts c10VerOpts "   " "   " baseEnv rfl (by decide)
    rfl rfl (by decide)


/-- C3 counterexample: in a plain successful run the operating-system
axis is read twice (once for the archive name at line 108, once for the
binary name at line 127), not exactly once. -/
theorem c3_counterexample :
    countEffect isEnvReadOs (initializeFlow ⟨none⟩ baseEnv).2 = 2 := by
  rfl

/-- C3 (amended): in every run that reaches platform resolution with a
supported platform, the architecture is read exactly once but the
operating system is read twice — once for the archive-name computation
and once, independently, for the binary-name computation. -/
theorem c3_env_read_count (opts : Option Json) (env : Env) (a o tok fam : String)
    (hsc : takesShortCircuit opts = false)
    (hae : env.archRes = Except.ok a) (ha : archToken a = some tok)
    (hoe : env.osRes1 = Except.ok o) (ho : osFamily o = some fam) :
    countEffect isEnvReadArch (initializeFlow ⟨opts⟩ env).2 = 1 ∧
    countEffect isEnvReadOs (initializeFlow ⟨opts⟩ env).2 = 2 := by
  rw [initializeFlow_no_short _ _ hsc,
    mainFlow_reduce opts (resolveServerArgs opts) env a o tok fam hae ha hoe ho]
  rcases hacq : acquireStage env (zipFileName (resolveVersion opts) fam tok)
      (downloadUrlOf (resolveVersion opts)
        (zipFileName (resolveVersion opts) fam tok))
      (binaryNameOf env.osRes2) with ⟨r4, t4⟩
  have ht4 : ∀ x ∈ t4, isPlatformRead x = false := by
    intro x hx
    exact acquireStage_no_platform env _ _ _ x (by rw [hacq]; exact hx)
  have ht4os : countEffect isEnvReadOs t4 = 0 :=
    countEffect_eq_zero_of _ _ (fun e he => isEnvReadOs_false_of_platform (ht4 e he))
  have ht4arch : countEffect isEnvReadArch t4 = 0 :=
    countEffect_eq_zero_of _ _ (fun e he => isEnvReadArch_false_of_platform (ht4 e he))
  cases r4 with
  | error e =>
    simp [countEffect_cons, isEnvReadOs, isEnvReadArch, ht4os, ht4arch]
  | ok _ =>
    rcases hl : launchStage env.uriRes (binaryNameOf env.osRes2)
        (resolveServerArgs opts) with ⟨r5, t5⟩
    have ht5 : ∀ x ∈ t5, isPlatformRead x = false := by
      intro x hx
      exact launchStage_no_platform _ _ _ x (by rw [hl]; exact hx)
    have ht5os : countEffect isEnvReadOs t5 = 0 :=
      countEffect_eq_zero_of _ _ (fun e he => isEnvReadOs_false_of_platform (ht5 e he))
    have ht5arch : countEffect isEnvReadArch t5 = 0 :=
      countEffect_eq_zero_of _ _ (fun e he => isEnvReadArch_false_of_platform (ht5 e he))
    simp [countEffect_cons, countEffect_append, isEnvReadOs, isEnvReadArch,
      ht4os, ht4arch, ht5os, ht5arch]

/-- Witness for `c3_env_read_count` on the default linux/x86_64 run. -/
theorem c3_env_read_count_witness :
    countEffect isEnvReadArch (initializeFlow ⟨none⟩ baseEnv).2 = 1 ∧
    countEffect isEnvReadOs (initializeFlow ⟨none⟩ baseEnv).2 = 2 :=
  c3_env_read_count none baseEnv "x86_64" "linux" "amd64" "linux" rfl rfl rfl rfl rfl

/-- C9: with an unsupported architecture or operating-system string (and
no short-circuit), the run fails with the corresponding
unsupported-platform error and its trace holds no HTTP call and no
filesystem action — it stops at the environment reads. -/
theorem c9_unsupported (opts : Option Json) (a o : String)
    (os2 ur : Except String String) (bp sp : Bool) (sr : Except String Unit)
    (hr : Except String HttpResp) (fr : Except String Unit)
    (hsc : takesShortCircuit opts = false)
    (hbad : archToken a = none ∨ osFamily o = none) :
    (∃ msg,
      (initializeFlow ⟨opts⟩
          (mkEnv (Except.ok a) (Except.ok o) os2 ur bp sp sr hr fr)).1 =
        Except.error msg ∧
      (msg = "Unsupported ARCH: " ++ a ∨ msg = "Unsupported OS: " ++ o)) ∧
    countEffect isHttpGet
      (initializeFlow ⟨opts⟩
        (mkEnv (Except.ok a) (Except.ok o) os2 ur bp sp sr hr fr)).2 = 0 ∧
    countEffect isFsEffect
      (initializeFlow ⟨opts⟩
        (mkEnv (Except.ok a) (Except.ok o) os2 ur bp sp sr hr fr)).2 = 0 := by
  have hred := initializeFlow_no_short opts
    (mkEnv (Except.ok a) (Except.ok o) os2 ur bp sp sr hr fr) hsc
  cases harch : archToken a with
  | none =>
    have hm : mainFlow opts (resolveServerArgs opts)
        (mkEnv (Except.ok a) (Except.ok o) os2 ur bp sp sr hr fr) =
        (Except.error ("Unsupported ARCH: " ++ a), [Effect.envReadArch]) := by
      unfold mainFlow readArchStage
      simp [mkEnv, harch]
    rw [hred, hm]
    exact ⟨⟨_, rfl, Or.inl rfl⟩, by simp [countEffect, isHttpGet],
      by simp [countEffect, isFsEffect]⟩
  | some tok =>
    have hos : osFamily o = none := by
      rcases hbad with h | h
      · rw [harch] at h; cases h
      · exact h
    have hm : mainFlow opts (resolveServerArgs opts)
        (mkEnv (Except.ok a) (Except.ok o) os2 ur bp sp sr hr fr) =
        (Except.error ("Unsupported OS: " ++ o),
          [Effect.envReadArch, Effect.envReadOs]) := by
      unfold mainFlow readArchStage readOsStage
      simp [mkEnv, harch, hos]
    rw [hred, hm]
    exact ⟨⟨_, rfl, Or.inr rfl⟩, by simp [countEffect, isHttpGet],
      by simp [countEffect, isFsEffect]⟩

/-- Environment reporting an unsupported platform. -/
def c9Env : Env :=
  mkEnv (Except.ok "riscv64") (Except.ok "plan9") (Except.ok "linux")
    (Except.ok "file:///plugins/volt/") false false (Except.ok ())
    (Except.ok ⟨true, Except.ok []⟩) (Except.ok ())

/-- Witness for `c9_unsupported` at a concrete unsupported platform. -/
theorem c9_unsupported_witness :
    (∃ msg, (initializeFlow ⟨none⟩ c9Env).1 = Except.error msg ∧
      (msg = "Unsupported ARCH: " ++ "riscv64" ∨
        msg = "Unsupported OS: " ++ "plan9")) ∧
    countEffect isHttpGet (initializeFlow ⟨none⟩ c9Env).2 = 0 ∧
    countEffect isFsEffect (initializeFlow ⟨none⟩ c9Env).2 = 0 :=
  c9_unsupported none "riscv64" "plan9" (Except.ok "linux")
    (Except.ok "file:///plugins/volt/") false false (Except.ok ())
    (Except.ok ⟨true, Except.ok []⟩) (Except.ok ()) rfl (Or.inl rfl)



theorem extractEntry_only_fs (e : ZipEntry) :
    ∀ x ∈ extractEntry e, isArchiveWriteEffect x = true := by
  intro x hx
  unfold extractEntry at hx
  split at hx
  · simp at hx
  · split at hx
    · simp at hx; subst hx; rfl
    · simp at hx; rcases hx with rfl | rfl <;> rfl

theorem extractAll_only_fs (es : List ZipEntry) :
    ∀ x ∈ extractAll es, isArchiveWriteEffect x = true := by
  induction es with
  | nil => intro x hx; simp [extractAll] at hx
  | cons e rest ih =>
    intro x hx
    rcases List.mem_append.mp hx with h | h
    · exact extractEntry_only_fs e x h
    · exact ih x h

theorem launchUris_extractAll (es : List ZipEntry) :
    launchUris (extractAll es) = [] := by
  induction es with
  | nil => simp [extractAll, launchUris]
  | cons e rest ih =>
    rw [extractAll, launchUris_append, ih]
    unfold extractEntry
    split
    · simp [launchUris]
    · split <;> simp [launchUris]

/-- C2 counterexample: a failing deletion of the stale archive before
the download (line 134, `fs::remove_file(&zip_file)?`) aborts the whole
initialize flow — the failure is propagated, not merely logged. -/
theorem c2_counterexample :
    (initializeFlow ⟨none⟩
        (mkEnv (Except.ok "x86_64") (Except.ok "linux") (Except.ok "linux")
          (Except.ok "file:///plugins/volt/") false true
          (Except.error "Permission denied")
          (Except.ok ⟨true, Except.ok []⟩) (Except.ok ()))).1 =
      Except.error "Permission denied" := by
  rfl

/-- C2 (amended): the post-extraction removal of the downloaded archive
(line 166) is logged only and never propagated — the flow still
launches — but the pre-download deletion of a stale archive (line 134)
propagates its failure and aborts the flow. -/
theorem c2_cleanup_policy (opts : Option Json) (a o tok fam o2 u e e2 : String)
    (entries : List ZipEntry)
    (hsc : takesShortCircuit opts = false)
    (ha : archToken a = some tok) (ho : osFamily o = some fam) :
    ((initializeFlow ⟨opts⟩
        (mkEnv (Except.ok a) (Except.ok o) (Except.ok o2) (Except.ok u) false false
          (Except.ok ()) (Except.ok ⟨true, Except.ok entries⟩)
          (Except.error e))).1 = Except.ok () ∧
      Effect.logMessage ("Failed to remove download artifact! e: " ++ e) ∈
        (initializeFlow ⟨opts⟩
          (mkEnv (Except.ok a) (Except.ok o) (Except.ok o2) (Except.ok u) false false
            (Except.ok ()) (Except.ok ⟨true, Except.ok entries⟩)
            (Except.error e))).2) ∧
    (initializeFlow ⟨opts⟩
        (mkEnv (Except.ok a) (Except.ok o) (Except.ok o2) (Except.ok u) false true
          (Except.error e2) (Except.ok ⟨true, Except.ok entries⟩)
          (Except.ok ()))).1 = Except.error e2 := by
  refine ⟨⟨?_, ?_⟩, ?_⟩
  · rw [initializeFlow_no_short _ _ hsc,
      mainFlow_reduce opts (resolveServerArgs opts) _ a o tok fam rfl ha rfl ho]
    simp [acquireStage, staleStage, fetchStage, cleanupStage, launchStage, mkEnv]
  · rw [initializeFlow_no_short _ _ hsc,
      mainFlow_reduce opts (resolveServerArgs opts) _ a o tok fam rfl ha rfl ho]
    simp [acquireStage, staleStage, fetchStage, cleanupStage, launchStage, mkEnv,
      List.mem_append]
  · rw [initializeFlow_no_short _ _ hsc,
      mainFlow_reduce opts (resolveServerArgs opts) _ a o tok fam rfl ha rfl ho]
    simp [acquireStage, staleStage, mkEnv]

/-- Witness for `c2_cleanup_policy` at a concrete platform and error
strings. -/
theorem c2_cleanup_policy_witness :
    ((initializeFlow ⟨none⟩
        (mkEnv (Except.ok "x86_64") (Except.ok "linux") (Except.ok "linux")
          (Except.ok "file:///plugins/volt/") false false
          (Except.ok ()) (Except.ok ⟨true, Except.ok []⟩)
          (Except.error "EBUSY"))).1 = Except.ok () ∧
      Effect.logMessage ("Failed to remove download artifact! e: " ++ "EBUSY") ∈
        (initializeFlow ⟨none⟩
          (mkEnv (Except.ok "x86_64") (Except.ok "linux") (Except.ok "linux")
            (Except.ok "file:///plugins/volt/") false false
            (Except.ok ()) (Except.ok ⟨true, Except.ok []⟩)
            (Except.error "EBUSY"))).2) ∧
    (initializeFlow ⟨none⟩
        (mkEnv (Except.ok "x86_64") (Except.ok "linux") (Except.ok "linux")
          (Except.ok "file:///plugins/volt/") false true
          (Except.error "EACCES") (Except.ok ⟨true, Except.ok []⟩)
          (Except.ok ()))).1 = Except.error "EACCES" :=
  c2_cleanup_policy none "x86_64" "linux" "amd64" "linux" "linux"
    "file:///plugins/volt/" "EBUSY" "EACCES" [] rfl rfl rfl

/-- C4: the fresh-install run downloads exactly
`<base>/<version>/terraform-ls_<version>_<osfamily>_<archtoken>.zip`
with the OS and architecture mapped by the claimed tables; the expected
binary name is `terraform-ls.exe` exactly on windows; and at the
concrete default scenario (empty configuration, linux, x86_64) the
resolved version is 0.32.7, the archive name is
`terraform-ls_0.32.7_linux_amd64.zip` and the URL is the HashiCorp
release URL for it. -/
theorem c4_artifact_naming (opts : Option Json) (a o tok fam o2 u : String)
    (entries : List ZipEntry)
    (hsc : takesShortCircuit opts = false)
    (ha : archToken a = some tok) (ho : osFamily o = some fam) :
    (Effect.httpGet ("https://releases.hashicorp.com/terraform-ls/" ++
        resolveVersion opts ++ "/" ++
        ("terraform-ls_" ++ resolveVersion opts ++ "_" ++ fam ++ "_" ++ tok ++
          ".zip")) ∈
      (initializeFlow ⟨opts⟩
        (mkEnv (Except.ok a) (Except.ok o) (Except.ok o2) (Except.ok u) false false
          (Except.ok ()) (Except.ok ⟨true, Except.ok entries⟩)
          (Except.ok ()))).2) ∧
    archToken "x86" = some "386" ∧ archToken "x86_64" = some "amd64" ∧
    archToken "aarch64" = some "arm64" ∧
    osFamily "macos" = some "darwin" ∧ osFamily "linux" = some "linux" ∧
    osFamily "windows" = some "windows" ∧ osFamily "openbsd" = some "openbsd" ∧
    osFamily "freebsd" = some "freebsd" ∧
    binaryNameOf (Except.ok "windows") = "terraform-ls.exe" ∧
    (o2 ≠ "windows" → binaryNameOf (Except.ok o2) = "terraform-ls") ∧
    resolveVersion (some (Json.obj [])) = "0.32.7" ∧
    zipFileName "0.32.7" "linux" "amd64" = "terraform-ls_0.32.7_linux_amd64.zip" ∧
    downloadUrlOf "0.32.7" (zipFileName "0.32.7" "linux" "amd64") =
      "https://releases.hashicorp.com/terraform-ls/0.32.7/terraform-ls_0.32.7_linux_amd64.zip" := by
  refine ⟨?_, rfl, rfl, rfl, rfl, rfl, rfl, rfl, rfl, rfl, ?_, rfl, rfl, rfl⟩
  · rw [initializeFlow_no_short _ _ hsc,
      mainFlow_reduce opts (resolveServerArgs opts) _ a o tok fam rfl ha rfl ho]
    simp [acquireStage, staleStage, fetchStage, cleanupStage, launchStage, mkEnv,
      zipFileName, downloadUrlOf, List.mem_append]
  · intro h
    unfold binaryNameOf
    split <;> simp_all

/-- Witness for `c4_artifact_naming` at the claim's concrete default
scenario. -/
theorem c4_artifact_naming_witness :
    Effect.httpGet ("https://releases.hashicorp.com/terraform-ls/" ++
        resolveVersion (some (Json.obj [])) ++ "/" ++
        ("terraform-ls_" ++ resolveVersion (some (Json.obj [])) ++ "_" ++
          "linux" ++ "_" ++ "amd64" ++ ".zip")) ∈
      (initializeFlow ⟨some (Json.obj [])⟩
        (mkEnv (Except.ok "x86_64") (Except.ok "linux") (Except.ok "linux")
          (Except.ok "file:///plugins/volt/") false false
          (Except.ok ()) (Except.ok ⟨true, Except.ok []⟩)
          (Except.ok ()))).2 :=
  (c4_artifact_naming (some (Json.obj [])) "x86_64" "linux" "amd64" "linux"
    "linux" "file:///plugins/volt/" [] rfl rfl rfl).1

/-- C7: a reachable non-success HTTP status does not fail the run — the
archive is neither written nor opened nor extracted, yet the launch
directive is still issued with the usual joined URI. -/
theorem c7_nonsuccess_soft (opts : Option Json) (a o tok fam o2 u : String)
    (sp : Bool) (body : Except String (List ZipEntry)) (fr : Except String Unit)
    (hsc : takesShortCircuit opts = false)
    (ha : archToken a = some tok) (ho : osFamily o = some fam) :
    (initializeFlow ⟨opts⟩
        (mkEnv (Except.ok a) (Except.ok o) (Except.ok o2) (Except.ok u) false sp
          (Except.ok ()) (Except.ok ⟨false, body⟩) fr)).1 = Except.ok () ∧
    countEffect isArchiveWriteEffect
      (initializeFlow ⟨opts⟩
        (mkEnv (Except.ok a) (Except.ok o) (Except.ok o2) (Except.ok u) false sp
          (Except.ok ()) (Except.ok ⟨false, body⟩) fr)).2 = 0 ∧
    launchUris
      (initializeFlow ⟨opts⟩
        (mkEnv (Except.ok a) (Except.ok o) (Except.ok o2) (Except.ok u) false sp
          (Except.ok ()) (Except.ok ⟨false, body⟩) fr)).2 =
      [joinUri u (binaryNameOf (Except.ok o2))] := by
  rw [initializeFlow_no_short _ _ hsc,
    mainFlow_reduce opts (resolveServerArgs opts) _ a o tok fam rfl ha rfl ho]
  cases sp <;> cases fr <;>
    simp [acquireStage, staleStage, fetchStage, cleanupStage, launchStage, mkEnv,
      countEffect_cons, countEffect_append, countEffect, isArchiveWriteEffect,
      launchUris]

/-- Witness for `c7_nonsuccess_soft` at a concrete failing status. -/
theorem c7_nonsuccess_soft_witness :
    (initializeFlow ⟨none⟩
        (mkEnv (Except.ok "x86_64") (Except.ok "linux") (Except.ok "linux")
          (Except.ok "file:///plugins/volt/") false false
          (Except.ok ()) (Except.ok ⟨false, Except.ok []⟩)
          (Except.ok ()))).1 = Except.ok () ∧
    countEffect isArchiveWriteEffect
      (initializeFlow ⟨none⟩
        (mkEnv (Except.ok "x86_64") (Except.ok "linux") (Except.ok "linux")
          (Except.ok "file:///plugins/volt/") false false
          (Except.ok ()) (Except.ok ⟨false, Except.ok []⟩)
          (Except.ok ()))).2 = 0 ∧
    launchUris
      (initializeFlow ⟨none⟩
        (mkEnv (Except.ok "x86_64") (Except.ok "linux") (Except.ok "linux")
          (Except.ok "file:///plugins/volt/") false false
          (Except.ok ()) (Except.ok ⟨false, Except.ok []⟩)
          (Except.ok ()))).2 =
      [joinUri "file:///plugins/volt/" (binaryNameOf (Except.ok "linux"))] :=
  c7_nonsuccess_soft none "x86_64" "linux" "amd64" "linux" "linux"
    "file:///plugins/volt/" false (Except.ok []) (Except.ok ()) rfl rfl rfl

/-- C8: when the expected binary is already present, the run performs no
HTTP call and no archive write or extraction, succeeds, and issues a
launch directive with the same URI as the fresh-install run (binary
absent, fetch succeeds) of the same environment. -/
theorem c8_idempotent (opts : Option Json) (a o tok fam o2 u : String)
    (entries : List ZipEntry)
    (hsc : takesShortCircuit opts = false)
    (ha : archToken a = some tok) (ho : osFamily o = some fam) :
    (initializeFlow ⟨opts⟩
        (mkEnv (Except.ok a) (Except.ok o) (Except.ok o2) (Except.ok u) true false
          (Except.ok ()) (Except.ok ⟨true, Except.ok entries⟩)
          (Except.ok ()))).1 = Except.ok () ∧
    countEffect isHttpGet
      (initializeFlow ⟨opts⟩
        (mkEnv (Except.ok a) (Except.ok o) (Except.ok o2) (Except.ok u) true false
          (Except.ok ()) (Except.ok ⟨true, Except.ok entries⟩)
          (Except.ok ()))).2 = 0 ∧
    countEffect isArchiveWriteEffect
      (initializeFlow ⟨opts⟩
        (mkEnv (Except.ok a) (Except.ok o) (Except.ok o2) (Except.ok u) true false
          (Except.ok ()) (Except.ok ⟨true, Except.ok entries⟩)
          (Except.ok ()))).2 = 0 ∧
    launchUris
      (initializeFlow ⟨opts⟩
        (mkEnv (Except.ok a) (Except.ok o) (Except.ok o2) (Except.ok u) true false
          (Except.ok ()) (Except.ok ⟨true, Except.ok entries⟩)
          (Except.ok ()))).2 =
      launchUris
        (initializeFlow ⟨opts⟩
          (mkEnv (Except.ok a) (Except.ok o) (Except.ok o2) (Except.ok u) false false
            (Except.ok ()) (Except.ok ⟨true, Except.ok entries⟩)
            (Except.ok ()))).2 := by
  rw [initializeFlow_no_short opts
      (mkEnv (Except.ok a) (Except.ok o) (Except.ok o2) (Except.ok u) true false
        (Except.ok ()) (Except.ok ⟨true, Except.ok entries⟩) (Except.ok ())) hsc,
    initializeFlow_no_short opts
      (mkEnv (Except.ok a) (Except.ok o) (Except.ok o2) (Except.ok u) false false
        (Except.ok ()) (Except.ok ⟨true, Except.ok entries⟩) (Except.ok ())) hsc,
    mainFlow_reduce opts (resolveServerArgs opts)
      (mkEnv (Except.ok a) (Except.ok o) (Except.ok o2) (Except.ok u) true false
        (Except.ok ()) (Except.ok ⟨true, Except.ok entries⟩) (Except.ok ()))
      a o tok fam rfl ha rfl ho,
    mainFlow_reduce opts (resolveServerArgs opts)
      (mkEnv (Except.ok a) (Except.ok o) (Except.ok o2) (Except.ok u) false false
        (Except.ok ()) (Except.ok ⟨true, Except.ok entries⟩) (Except.ok ()))
      a o tok fam rfl ha rfl ho]
  simp [acquireStage, staleStage, fetchStage, cleanupStage, launchStage, mkEnv,
    countEffect_cons, countEffect_append, countEffect, isHttpGet,
    isArchiveWriteEffect, launchUris, launchUris_append, launchUris_extractAll,
    List.filterMap_append]
  intro x hx
  have h := extractAll_only_fs entries x hx
  cases x <;> simp_all [isArchiveWriteEffect]



/-- Witness for `c8_idempotent` on the default linux/x86_64 platform. -/
theorem c8_idempotent_witness :
    (initializeFlow ⟨none⟩
        (mkEnv (Except.ok "x86_64") (Except.ok "linux") (Except.ok "linux")
          (Except.ok "file:///plugins/volt/") true false
          (Except.ok ()) (Except.ok ⟨true, Except.ok [⟨"terraform-ls"⟩]⟩)
          (Except.ok ()))).1 = Except.ok () ∧
    countEffect isHttpGet
      (initializeFlow ⟨none⟩
        (mkEnv (Except.ok "x86_64") (Except.ok "linux") (Except.ok "linux")
          (Except.ok "file:///plugins/volt/") true false
          (Except.ok ()) (Except.ok ⟨true, Except.ok [⟨"terraform-ls"⟩]⟩)
          (Except.ok ()))).2 = 0 ∧
    countEffect isArchiveWriteEffect
      (initializeFlow ⟨none⟩
        (mkEnv (Except.ok "x86_64") (Except.ok "linux") (Except.ok "linux")
          (Except.ok "file:///plugins/volt/") true false
          (Except.ok ()) (Except.ok ⟨true, Except.ok [⟨"terraform-ls"⟩]⟩)
          (Except.ok ()))).2 = 0 ∧
    launchUris
      (initializeFlow ⟨none⟩
        (mkEnv (Except.ok "x86_64") (Except.ok "linux") (Except.ok "linux")
          (Except.ok "file:///plugins/volt/") true false
          (Except.ok ()) (Except.ok ⟨true, Except.ok [⟨"terraform-ls"⟩]⟩)
          (Except.ok ()))).2 =
      launchUris
        (initializeFlow ⟨none⟩
          (mkEnv (Except.ok "x86_64") (Except.ok "linux") (Except.ok "linux")
            (Except.ok "file:///plugins/volt/") false false
            (Except.ok ()) (Except.ok ⟨true, Except.ok [⟨"terraform-ls"⟩]⟩)
            (Except.ok ()))).2 :=
  c8_idempotent none "x86_64" "linux" "amd64" "linux" "linux"
    "file:///plugins/volt/" [⟨"terraform-ls"⟩] rfl rfl rfl

theorem enclosedName_some {n m : String} (h : enclosedName n = some m) :
    m = n := by
  unfold enclosedName at h
  by_cases h1 : strHasNul n
  · simp [h1] at h
  · by_cases h2 : strStartsWithSlash n
    · simp [h1, h2] at h
    · by_cases h3 : depthOk (pathComponents n) 0
      · simp [h1, h2, h3] at h; exact h.symm
      · simp [h1, h2, h3] at h

theorem mem_extractAll_iff {x : Effect} {es : List ZipEntry} :
    x ∈ extractAll es ↔ ∃ e, e ∈ es ∧ x ∈ extractEntry e := by
  induction es with
  | nil => simp [extractAll]
  | cons e rest ih =>
    rw [extractAll]
    constructor
    · intro h
      rcases List.mem_append.mp h with h | h
      · exact ⟨e, List.mem_cons_self e rest, h⟩
      · rcases ih.mp h with ⟨e2, he2, hx⟩
        exact ⟨e2, List.mem_cons_of_mem e he2, hx⟩
    · rintro ⟨e2, he2, hx⟩
      rcases List.mem_cons.mp he2 with rfl | he2
      · exact List.mem_append.mpr (Or.inl hx)
      · exact List.mem_append.mpr (Or.inr (ih.mpr ⟨e2, he2, hx⟩))

/-- C5: extraction is zip-slip safe.  Every entry whose name has no
enclosed relative form (NUL, absolute, or climbing above the root via
`..`) produces no effect at all; every path actually written or created
is itself a safe relative path (so nothing lands outside the
destination); every entry with a legal relative name is still written
(files) or created (directories); and extraction of an arbitrary
archive, malicious entries included, never fails the fetch stage. -/
theorem c5_zip_slip (entries : List ZipEntry) (zf url : String) :
    (∀ e, e ∈ entries → enclosedName e.name = none → extractEntry e = []) ∧
    (∀ p, Effect.fsWrite p ∈ extractAll entries → enclosedName p = some p) ∧
    (∀ p, Effect.fsCreateDir p ∈ extractAll entries → enclosedName p = some p) ∧
    (∀ e, e ∈ entries → enclosedName e.name = some e.name →
      strEndsWithSlash e.name = false →
      Effect.fsWrite e.name ∈ extractAll entries) ∧
    (∀ e, e ∈ entries → enclosedName e.name = some e.name →
      strEndsWithSlash e.name = true →
      Effect.fsCreateDir e.name ∈ extractAll entries) ∧
    (fetchStage (Except.ok ⟨true, Except.ok entries⟩) zf url).1 =
      Except.ok () := by
  refine ⟨?_, ?_, ?_, ?_, ?_, ?_⟩
  · intro e he h
    simp [extractEntry, h]
  · intro p hp
    rcases mem_extractAll_iff.mp hp with ⟨e, he, hx⟩
    unfold extractEntry at hx
    cases hn : enclosedName e.name with
    | none => rw [hn] at hx; simp at hx
    | some q =>
      simp only [hn] at hx
      have hq : q = e.name := enclosedName_some hn
      by_cases hs : strEndsWithSlash e.name = true
      · rw [if_pos hs] at hx; simp at hx
      · rw [if_neg hs] at hx
        simp at hx
        subst hx
        rw [hq]
        rw [hq] at hn
        exact hn
  · intro p hp
    rcases mem_extractAll_iff.mp hp with ⟨e, he, hx⟩
    unfold extractEntry at hx
    cases hn : enclosedName e.name with
    | none => rw [hn] at hx; simp at hx
    | some q =>
      simp only [hn] at hx
      have hq : q = e.name := enclosedName_some hn
      by_cases hs : strEndsWithSlash e.name = true
      · rw [if_pos hs] at hx
        simp at hx
        subst hx
        rw [hq]
        rw [hq] at hn
        exact hn
      · rw [if_neg hs] at hx; simp at hx
  · intro e he hn hs
    refine mem_extractAll_iff.mpr ⟨e, he, ?_⟩
    simp [extractEntry, hn, hs]
  · intro e he hn hs
    refine mem_extractAll_iff.mpr ⟨e, he, ?_⟩
    simp [extractEntry, hn, hs]
  · simp [fetchStage]

/-- Witness for `c5_zip_slip` on an archive holding the malicious entry
`../../evil` next to a legal one. -/
theorem c5_zip_slip_witness :
    extractEntry ⟨"../../evil"⟩ = [] ∧
    Effect.fsWrite "terraform-ls" ∈
      extractAll [⟨"../../evil"⟩, ⟨"terraform-ls"⟩] ∧
    (fetchStage
        (Except.ok ⟨true, Except.ok [⟨"../../evil"⟩, ⟨"terraform-ls"⟩]⟩)
        "z" "u").1 = Except.ok () := by
  have h := c5_zip_slip [⟨"../../evil"⟩, ⟨"terraform-ls"⟩] "z" "u"
  exact ⟨h.1 ⟨"../../evil"⟩ (by decide) (by decide),
    h.2.2.2.1 ⟨"terraform-ls"⟩ (by decide) (by decide) (by decide),
    h.2.2.2.2.2⟩


end TerraformLs
